import Mathlib

set_option maxRecDepth 8192

deriving instance DecidableEq for Except

/-- Payload stored in a block's body. The source constructs blocks with a
payload that is either the genesis marker object or a star/owner record; the
body encoding (hex in the source) is a lossless external codec and is
modelled as the identity, so the body holds the structured payload directly. -/
inductive BData where
  | genesisData : BData
  | starData (star : String) (owner : String) : BData
  deriving DecidableEq

/-- Owner field of a decoded payload: models the access `.data.owner` on the
decoded body; the genesis marker has no owner field (undefined in JS). -/
def BData.owner : BData → Option String
  | BData.genesisData => none
  | BData.starData _ o => some o

/-- Content digest of a block. SHA256 over the serialized block (whose
stored hash field is still null at sealing time, and which is excluded when
revalidating) is an external capability; it is modelled as a perfect,
collision-free hash: the digest is the tuple of the hashed fields
themselves. The constructors mk0 and mk1 distinguish a null and a present
previous-hash link. -/
inductive Hash where
  | mk0 (height : Option Nat) (body : BData) (time : Option Nat) : Hash
  | mk1 (height : Option Nat) (body : BData) (time : Option Nat) (prev : Hash) : Hash
  deriving DecidableEq

/-- A block record with the fields the source reads and writes: hash,
height, body, time, previousBlockHash. Fields the source may leave
unassigned (undefined or null in JS) are Option. -/
structure Block where
  hash : Option Hash
  height : Option Nat
  body : BData
  time : Option Nat
  previousBlockHash : Option Hash
  deriving DecidableEq

/-- Modelled from the spec: the Block class (required from ./block.js) is
not under src/. Per the spec a block is constructed with payload only, all
chain-linkage fields unset. -/
def Block.new (data : BData) : Block :=
  { hash := none
    height := none
    body := data
    time := none
    previousBlockHash := none }

/-- Hash of the block's current non-hash field values, as computed by
SHA256(JSON.stringify(block)) at seal time (the stored hash field is null at
that moment and carries no content). -/
def computeContentHash (b : Block) : Hash :=
  match b.previousBlockHash with
  | none => Hash.mk0 b.height b.body b.time
  | some p => Hash.mk1 b.height b.body b.time p

/-- Modelled from the spec: Block.validate (block.js, absent from src/)
recomputes the content hash from the block's current field values and
reports whether it still equals the stored hash. -/
def Block.validate (b : Block) : Bool :=
  b.hash == some (computeContentHash b)

/-- Modelled from the spec: Block.getBData (block.js, absent from src/)
resolves with the block's decoded data; with the identity codec the decoded
record is the block itself, and its owner is read through BData.owner. -/
def getBData (b : Block) : Block := b

/-- The Blockchain object's own state: the chain array and the height
counter (initialized to -1 by the constructor). -/
structure ChainState where
  chain : List Block
  height : Int
  deriving DecidableEq

/-- JavaScript member read chain[i].hash for an integer index; an
out-of-range index yields no hash. -/
def jsIndexHash (l : List Block) (i : Int) : Option Hash :=
  if i < 0 then none else (l.get? i.toNat).bind Block.hash

/-- JavaScript truthiness of an object value: a block object is always
truthy. -/
def jsTruthyObject (_b : Block) : Bool := true

/-- JavaScript truthiness of an array value: an array object is always
truthy, even when empty. -/
def jsTruthyArray {α : Type} (_l : List α) : Bool := true

/-- Embedding of _addBlock (src/blockchain.js lines 64-88). The statements
`block.height =+ 1` and `self.height =+ 1` assign the value +1; they do not
increment. The previous link is read from chain[self.height - 1]. The block
is pushed unconditionally, and the final guard tests the block value. -/
def ChainState._addBlock (self : ChainState) (block : Block) (nowSec : Nat) :
    ChainState × Except String Block :=
  let b1 : Block := { block with time := some nowSec }
  let b2 : Block :=
    if self.height > -1 then
      { b1 with
        previousBlockHash := jsIndexHash self.chain (self.height - 1)
        height := some 1 }
    else b1
  let b3 : Block := { b2 with hash := some (computeContentHash b2) }
  let pushed : ChainState := { chain := self.chain ++ [b3], height := 1 }
  if jsTruthyObject b3 then (pushed, Except.ok b3)
  else (pushed,
    Except.error ("Error occured during execution: Adding Block to the Chain Failed!"))

/-- Embedding of initializeChain (src/blockchain.js lines 36-41): when the
height is exactly -1, append the genesis block through _addBlock. -/
def ChainState.initializeChain (self : ChainState) (nowSec : Nat) : ChainState :=
  if self.height = -1 then (self._addBlock (Block.new BData.genesisData) nowSec).1
  else self

/-- The constructor (src/blockchain.js lines 25-29): chain := [],
height := -1, then initializeChain. -/
def Blockchain.new (nowSec : Nat) : ChainState :=
  ChainState.initializeChain { chain := [], height := -1 } nowSec

/-- Embedding of getChainHeight (src/blockchain.js lines 46-50): resolves
with the stored height. -/
def ChainState.getChainHeight (self : ChainState) : Int := self.height

/-- Decimal digit string (big-endian) of a natural number, as JavaScript
Number.prototype.toString renders a whole number. -/
def natChars (n : Nat) : List Char :=
  if _h : n < 10 then [Char.ofNat (48 + n)]
  else natChars (n / 10) ++ [Char.ofNat (48 + n % 10)]
  termination_by n
  decreasing_by exact Nat.div_lt_self (by omega) (by omega)

/-- JavaScript String.slice(0, -3): removes the last three characters, with
an empty result when the string has three or fewer. -/
def jsSliceDropLast3 (cs : List Char) : List Char :=
  cs.dropLast.dropLast.dropLast

/-- Embedding of requestMessageOwnershipVerification (src/blockchain.js
lines 98-104): resolves the template literal
address:time:starRegistry, where the time is new Date().getTime()
(milliseconds) rendered in decimal with its last three characters sliced
off. It is a pure function of the address and the clock reading; no state is
read or written. -/
def requestMessageOwnershipVerification (address : String) (nowMs : Nat) : String :=
  address ++ ":" ++ String.mk (jsSliceDropLast3 (natChars nowMs)) ++ ":starRegistry"

/-- Leading decimal digits of a character list folded into a number; none
when there is no leading digit. -/
def parseDigits (cs : List Char) : Option Nat :=
  let ds := cs.takeWhile (fun c => c.isDigit)
  if ds.isEmpty then none
  else some (ds.foldl (fun n c => 10 * n + (c.toNat - 48)) 0)

/-- JavaScript parseInt on the strings that occur here: an optional minus
sign followed by leading decimal digits; anything else gives NaN, modelled
as none. NaN propagates through the elapsed-time arithmetic and every <
comparison involving it is false, which the caller below reproduces. -/
def jsParseInt (s : String) : Option Int :=
  match s.toList with
  | ('-') :: rest => (parseDigits rest).map (fun n => -(n : Int))
  | cs => (parseDigits cs).map (fun n => (n : Int))

/-- JavaScript String.split(':') : the fields between the colons, with empty
fields preserved. -/
def splitChars : List Char → List (List Char)
  | [] => [[]]
  | c :: rest =>
    if c = (':') then [] :: splitChars rest
    else
      match splitChars rest with
      | [] => [[c]]
      | g :: gs => (c :: g) :: gs

/-- String form of the JavaScript split on colons. -/
def jsSplitColon (s : String) : List String :=
  (splitChars s.toList).map (fun cs => String.mk cs)

/-- Step 1 of submitStar (src/blockchain.js line 127):
parseInt(message.split(':')[1]); a missing field [1] is undefined, and
parseInt of it yields NaN (none). -/
def challengeTime (message : String) : Option Int :=
  jsParseInt ((jsSplitColon message).getD 1 (""))

/-- The single rejection message of submitStar (src/blockchain.js line 143). -/
def submitStarErrorMsg : String :=
  "Error submitting star! Elapsed time must be less than 5 minutes"

/-- Embedding of submitStar (src/blockchain.js lines 123-146). The elapsed
time is (current_time - time) / 60 with both clocks in unix seconds; the
single if tests time_elapsed < 5 && verified and every failure takes the one
generic rejection. The signature-verification capability
(bitcoinMessage.verify) is passed as the function argument verify, applied
as verify message address signature. -/
def ChainState.submitStar (self : ChainState)
    (verify : String → String → String → Bool)
    (address message signature star : String) (nowSec : Nat) :
    ChainState × Except String Block :=
  let time : Option Int := challengeTime message
  let current_time : Int := (nowSec : Int)
  let verified : Bool := verify message address signature
  let timeOk : Bool :=
    match time with
    | some t => decide ((current_time - t) / 60 < 5)
    | none => false
  if timeOk && verified then
    self._addBlock (Block.new (BData.starData star address)) nowSec
  else
    (self, Except.error submitStarErrorMsg)

/-- Embedding of getBlockByHash (src/blockchain.js lines 154-167): the first
block whose stored hash equals the argument (filter(...)[0]); when none is
found the promise is rejected with an error. -/
def ChainState.getBlockByHash (self : ChainState) (hash : Hash) : Except String Block :=
  match self.chain.find? (fun block => block.hash == some hash) with
  | some result => Except.ok result
  | none => Except.error ("Block not found!")

/-- JavaScript comparison x > y where x may be undefined: undefined > 0 is
false. -/
def jsNumGt (x : Option Nat) (y : Nat) : Bool :=
  match x with
  | some v => decide (y < v)
  | none => false

/-- Loop body of getStarsByWalletAddress (src/blockchain.js lines 199-213):
for a block with height > 0, decode it with getBData and push the decoded
record when its owner matches the address. -/
def starsStep (address : String) (stars : List Block) (block : Block) : List Block :=
  if jsNumGt block.height 0 then
    if (getBData block).body.owner == some address then stars ++ [getBData block]
    else stars
  else stars

/-- Embedding of getStarsByWalletAddress (src/blockchain.js lines 193-223).
The stars array is always truthy, so the resolve branch is always taken,
also when the array is empty. -/
def ChainState.getStarsByWalletAddress (self : ChainState) (address : String) :
    Except String (List Block) :=
  let stars := self.chain.foldl (starsStep address) []
  if jsTruthyArray stars then Except.ok stars
  else Except.error ("No stars found for the given address!")

/-- An entry of validateChain's errorLog: the source pushes either result
(the value returned by block.validate(), carrying the validation outcome) or
the block itself (for a mismatched previous link). -/
inductive Violation where
  | validationResult (result : Bool) : Violation
  | blockEntry (block : Block) : Violation
  deriving DecidableEq

/-- JavaScript loose equality result == block between the value returned by
block.validate() (a promise, whose eventual boolean outcome is the argument
here) and the block object itself: two distinct objects are never loosely
equal, so this comparison is constantly false, and the source's guard
result != block is always taken. -/
def jsResultEqBlock (_result : Bool) (_block : Block) : Bool := false

/-- Loop body of validateChain (src/blockchain.js lines 238-249): push the
validate() result whenever result != block (always), then push the block
itself when the running previous_hash does not equal its previousBlockHash,
then remember the block's stored hash. -/
def validateStep (acc : List Violation × Option Hash) (block : Block) :
    List Violation × Option Hash :=
  let result : Bool := block.validate
  let log1 : List Violation :=
    if jsResultEqBlock result block then acc.1
    else acc.1 ++ [Violation.validationResult result]
  let log2 : List Violation :=
    if acc.2 ≠ block.previousBlockHash then log1 ++ [Violation.blockEntry block]
    else log1
  (log2, block.hash)

/-- Embedding of validateChain (src/blockchain.js lines 231-259): fold the
chain with validateStep starting from an empty log and previous_hash null;
the errorLog array is always truthy, so the resolve branch is always taken. -/
def ChainState.validateChain (self : ChainState) : Except String (List Violation) :=
  let final := self.chain.foldl validateStep ([], none)
  if jsTruthyArray final.1 then Except.ok final.1
  else Except.error ("Valid Chain")

/-- States produced by the source's own control flow: the constructor
(which runs initializeChain) followed by any number of _addBlock calls on
freshly constructed blocks, which is how both the genesis path and
submitStar invoke it. -/
inductive Reachable : ChainState → Prop where
  | init (nowSec : Nat) : Reachable (Blockchain.new nowSec)
  | step (st : ChainState) (d : BData) (nowSec : Nat) :
      Reachable st → Reachable (st._addBlock (Block.new d) nowSec).1

/-- Specification-side description of getStarsByOwner, written from the
spec's words for comparison with the source embedding: decode the payload of
every block after the genesis block and keep, in chain order, exactly the
decoded records whose owner equals the identity. -/
def specStarsByOwner (st : ChainState) (address : String) : List Block :=
  ((st.chain.drop 1).map getBData).filter (fun r => r.body.owner == some address)

/-- The sealed block that _addBlock produces once the chain already holds
its genesis block (stored height 1): timestamp set, previous link read from
chain[height - 1] = chain[0], position assigned the constant 1, and the
content hash stored last. -/
def sealBlock (self : ChainState) (block : Block) (nowSec : Nat) : Block :=
  let b2 : Block :=
    { block with
      time := some nowSec
      previousBlockHash := jsIndexHash self.chain 0
      height := some 1 }
  { b2 with hash := some (computeContentHash b2) }

/-- A fresh chain built at time 0. -/
def stA : ChainState := Blockchain.new 0

/-- The fresh chain after one star append (owner A, time 1). -/
def stB : ChainState := (stA._addBlock (Block.new (BData.starData ("s1") ("A"))) 1).1

/-- After a second star append (owner B, time 2). -/
def stC : ChainState := (stB._addBlock (Block.new (BData.starData ("s2") ("B"))) 2).1

/-- After a third star append (owner A again, time 3). -/
def stD : ChainState := (stC._addBlock (Block.new (BData.starData ("s3") ("A"))) 3).1

/-- Default block used with List.getD in concrete statements. -/
def blockDefault : Block := Block.new BData.genesisData

/-- The fresh chain with its sealed genesis block mutated outside the append
path: the body is overwritten with a star payload, while the stored hash is
left as sealed. -/
def tamperedA : ChainState :=
  { chain := stA.chain.map (fun b => { b with body := BData.starData ("evil") ("E") })
    height := stA.height }

/-- Once the chain holds its genesis block the stored height is 1, and then
_addBlock always takes its non-genesis branch and produces exactly the
sealed block described by sealBlock, resolving with it. -/
theorem addBlock_eq_seal (st : ChainState) (b : Block) (nowSec : Nat)
    (hh : st.height = 1) :
    st._addBlock b nowSec =
      ({ chain := st.chain ++ [sealBlock st b nowSec], height := 1 },
        Except.ok (sealBlock st b nowSec)) := by
  simp [ChainState._addBlock, sealBlock, hh, jsTruthyObject]

/-- Shape of every state the source's control flow can produce: the stored
height is stuck at 1, the chain starts with the genesis block (whose height
field was never assigned), and every later block carries the assigned height
value 1. -/
theorem reachable_shape (st : ChainState) (h : Reachable st) :
    st.height = 1 ∧ ∃ g rest, st.chain = g :: rest ∧ g.height = none ∧
      ∀ b ∈ rest, b.height = some 1 := by
  induction h with
  | init nowSec =>
      exact ⟨rfl, _, [], rfl, rfl, by simp⟩
  | step st d nowSec hst ih =>
      obtain ⟨hh, g, rest, hchain, hg, hrest⟩ := ih
      rw [addBlock_eq_seal st (Block.new d) nowSec hh]
      refine ⟨rfl, g, rest ++ [sealBlock st (Block.new d) nowSec], ?_, hg, ?_⟩
      · simp [hchain]
      · intro b hb
        rcases List.mem_append.mp hb with hb | hb
        · exact hrest b hb
        · rw [List.mem_singleton.mp hb]; rfl

/-- C1. The claim asserts that N successful appends give positions exactly
0..N-1 with the stored height N-1, each append assigning position
old_height + 1 and raising the height by exactly 1. The code violates this:
`self.height =+ 1` and `block.height =+ 1` assign the constant 1, so already
the freshly initialized chain has stored height 1 (not 0), the height never
moves on later appends, the genesis block's position is never assigned, and
every appended block receives position 1 — repeated positions instead of
0..N-1, and never old_height + 1. -/
theorem append_positions_bug :
    stA.getChainHeight = 1 ∧ stB.getChainHeight = 1 ∧ stC.getChainHeight = 1 ∧
    stC.chain.map Block.height = [none, some 1, some 1] := by decide

/-- C2. The claim asserts block[i].previous_hash equals the content hash of
block[i-1] for every i > 0. The code violates it from the third block on:
the link is read from chain[self.height - 1] with self.height stuck at 1, so
every appended block links to the genesis block's hash; the block at
position 2 carries the content hash of block 0, not of block 1. -/
theorem link_integrity_bug :
    (stC.chain.getD 2 blockDefault).previousBlockHash =
      some (computeContentHash (stC.chain.getD 0 blockDefault)) ∧
    (stC.chain.getD 2 blockDefault).previousBlockHash ≠
      some (computeContentHash (stC.chain.getD 1 blockDefault)) := by decide

/-- C3. The claim asserts a freshly initialized chain has stored height 0,
one block, previous_hash unset and the genesis payload. The code produces
the single genesis block with previous_hash unset and the genesis marker as
payload, but the stored height is 1, because `self.height =+ 1` assigns 1
instead of incrementing -1 to 0. -/
theorem genesis_state_bug :
    (Blockchain.new 0).getChainHeight = 1 ∧
    (Blockchain.new 0).chain.map Block.body = [BData.genesisData] ∧
    (Blockchain.new 0).chain.map Block.previousBlockHash = [none] ∧
    (Blockchain.new 0).chain.length = 1 := by decide

/-- C4. The claim asserts that tampering with a sealed block makes
validateChain report a HashMismatch violation referencing that block. In the
code the guard `result != block` compares the promise returned by
block.validate() with the block object and is always true, so the raw
validate() result is pushed for every block: on the chain whose genesis body
was mutated the log holds only the bare boolean outcome false, which
references no block, and the identical kind of entry (with outcome true) is
recorded even on the untouched chain. -/
theorem validateChain_no_block_reference :
    tamperedA.validateChain = Except.ok [Violation.validationResult false] ∧
    stA.validateChain = Except.ok [Violation.validationResult true] := by decide

/-- C5. The claim asserts validateChain returns an empty violation list on
every untouched chain built by successful appends. The code never returns an
empty list on a non-empty chain: `result != block` always holds, so the
validate() outcome of every block is pushed — one entry for the fresh
genesis-only chain — and on the untouched three-block chain the broken-link
push fires as well, because the third block links to the genesis hash. -/
theorem validateChain_nonempty_on_fresh :
    stA.validateChain ≠ Except.ok [] ∧
    stA.validateChain = Except.ok [Violation.validationResult true] ∧
    stC.validateChain = Except.ok [Violation.validationResult true,
      Violation.validationResult true, Violation.validationResult true,
      Violation.blockEntry (stC.chain.getD 2 blockDefault)] := by decide

/-- Removing the last character of the decimal rendering of a number with at
least two digits renders the number divided by ten. -/
theorem natChars_dropLast (n : Nat) (h : 10 ≤ n) :
    (natChars n).dropLast = natChars (n / 10) := by
  rw [natChars, dif_neg (by omega)]
  exact List.dropLast_concat

/-- Slicing the last three characters off the decimal rendering of a number
with at least four digits renders the number divided by one thousand. -/
theorem natChars_slice3 (n : Nat) (h : 1000 ≤ n) :
    jsSliceDropLast3 (natChars n) = natChars (n / 1000) := by
  unfold jsSliceDropLast3
  rw [natChars_dropLast n (by omega), natChars_dropLast (n / 10) (by omega),
    natChars_dropLast (n / 10 / 10) (by omega)]
  congr 1
  omega

/-- C7. The challenge issued for an identity at a clock reading of nowMs
milliseconds is exactly the string identity, colon, the issuance time in
whole unix seconds in decimal, colon, starRegistry: the source's slice of
the last three characters of the millisecond string is the division by 1000.
The embedding is a pure function of the identity and the clock, so the
issuing step persists no state. The hypothesis keeps the clock at or above
one second past the epoch, where the millisecond string has more than three
digits. -/
theorem requestMessage_seconds_format (address : String) (nowMs : Nat)
    (h : 1000 ≤ nowMs) :
    requestMessageOwnershipVerification address nowMs =
      address ++ ":" ++ String.mk (natChars (nowMs / 1000)) ++ ":starRegistry" := by
  unfold requestMessageOwnershipVerification
  rw [natChars_slice3 nowMs h]

/-- Witness for C7 at a concrete clock reading. -/
theorem requestMessage_seconds_format_witness :
    requestMessageOwnershipVerification ("addr") 1700000000000 =
      ("addr") ++ ":" ++ String.mk (natChars (1700000000000 / 1000)) ++ ":starRegistry" :=
  requestMessage_seconds_format ("addr") 1700000000000 (by decide)

/-- A successful find? returns an element satisfying the predicate and
placed after a prefix of elements that all fail it: the first match. -/
theorem find_first_decomp {p : Block → Bool} :
    ∀ (l : List Block) (b : Block), l.find? p = some b →
      p b = true ∧ ∃ l1 l2, l = l1 ++ b :: l2 ∧ ∀ x ∈ l1, p x = false := by
  intro l
  induction l with
  | nil => intro b hb; simp [List.find?] at hb
  | cons a t ih =>
      intro b hb
      by_cases hp : p a
      · rw [List.find?_cons_of_pos _ hp] at hb
        obtain rfl : a = b := by injection hb
        exact ⟨hp, [], t, rfl, by simp⟩
      · rw [List.find?_cons_of_neg _ hp] at hb
        obtain ⟨hpb, l1, l2, hsplit, hall⟩ := ih b hb
        refine ⟨hpb, a :: l1, l2, by rw [hsplit]; rfl, ?_⟩
        intro x hx
        rcases List.mem_cons.mp hx with rfl | hx
        · exact Bool.of_not_eq_true hp
        · exact hall x hx

/-- C9, amended. getBlockByHash resolves with the first block in chain order
whose stored hash equals the argument: a resolved block matches the hash and
every block before it in the chain does not. When no block matches, the
promise is rejected with the Block-not-found error — the reject branch, not
a resolved NotFound value — and conversely that rejection only happens when
no block matches. -/
theorem getBlockByHash_spec (st : ChainState) (h : Hash) :
    (∀ b, st.getBlockByHash h = Except.ok b →
        b.hash = some h ∧
          ∃ l1 l2, st.chain = l1 ++ b :: l2 ∧ ∀ x ∈ l1, x.hash ≠ some h) ∧
    ((∀ b ∈ st.chain, b.hash ≠ some h) ↔
        st.getBlockByHash h = Except.error ("Block not found!")) := by
  constructor
  · intro b hb
    unfold ChainState.getBlockByHash at hb
    cases hfind : st.chain.find? (fun block => block.hash == some h) with
    | none => rw [hfind] at hb; exact absurd hb (by simp)
    | some r =>
        rw [hfind] at hb
        obtain rfl : r = b := by injection hb
        obtain ⟨hpb, l1, l2, hsplit, hall⟩ := find_first_decomp _ _ hfind
        refine ⟨by simpa using hpb, l1, l2, hsplit, ?_⟩
        intro x hx
        simpa using hall x hx
  · constructor
    · intro hnone
      have hfind : st.chain.find? (fun block => block.hash == some h) = none :=
        List.find?_eq_none.mpr (by intro x hx; simpa using hnone x hx)
      unfold ChainState.getBlockByHash
      rw [hfind]
    · intro herr b hb
      unfold ChainState.getBlockByHash at herr
      cases hfind : st.chain.find? (fun block => block.hash == some h) with
      | none => simpa using List.find?_eq_none.mp hfind b hb
      | some r => rw [hfind] at herr; exact absurd herr (by simp)

/-- Counterexample input for C9 as stated: on the fresh chain, looking up a
hash that no block carries takes the rejection branch of the source — the
promise is rejected with an error object — rather than resolving with a
NotFound value as the claim requires. -/
theorem getBlockByHash_rejects_on_absent :
    stA.getBlockByHash (Hash.mk0 none (BData.starData ("q") ("q")) none) =
      Except.error ("Block not found!") := by decide

/-- Witness for C9 at a concrete chain and absent hash. -/
theorem getBlockByHash_spec_witness :
    stA.getBlockByHash (Hash.mk0 (some 99) BData.genesisData none) =
      Except.error ("Block not found!") :=
  (getBlockByHash_spec stA (Hash.mk0 (some 99) BData.genesisData none)).2.mp (by decide)

/-- Folding starsStep over blocks that all carry the assigned height 1
appends, in order, exactly the decoded records whose owner matches. -/
theorem starsStep_fold (address : String) :
    ∀ (l : List Block) (acc : List Block), (∀ b ∈ l, b.height = some 1) →
      l.foldl (starsStep address) acc =
        acc ++ (l.map getBData).filter (fun r => r.body.owner == some address) := by
  intro l
  induction l with
  | nil => intro acc _; simp
  | cons b t ih =>
      intro acc hl
      have hb : b.height = some 1 := hl b (by simp)
      have ht : ∀ x ∈ t, x.height = some 1 := fun x hx => hl x (by simp [hx])
      have hstep : starsStep address acc b =
          if (getBData b).body.owner == some address then acc ++ [getBData b]
          else acc := by
        simp [starsStep, hb, jsNumGt]
      simp only [List.foldl_cons, hstep, List.map_cons, List.filter_cons]
      by_cases hown : ((getBData b).body.owner == some address) = true
      · rw [if_pos hown, if_pos hown, ih (acc ++ [getBData b]) ht]
        simp
      · rw [if_neg hown, if_neg hown, ih acc ht]

/-- C8. On every chain the source can produce, getStarsByWalletAddress
resolves — also with an empty array, never the rejection — with exactly the
decoded records of the blocks after the genesis block whose decoded owner
equals the queried identity, in chain order, as described by
specStarsByOwner. The source's filter reads the stored height field, which
is unset on the genesis block and 1 on every later block, so it selects
precisely the blocks after the genesis block. -/
theorem getStars_by_owner_spec (st : ChainState) (hst : Reachable st)
    (address : String) :
    st.getStarsByWalletAddress address = Except.ok (specStarsByOwner st address) := by
  obtain ⟨-, g, rest, hchain, hg, hrest⟩ := reachable_shape st hst
  unfold ChainState.getStarsByWalletAddress specStarsByOwner
  rw [hchain]
  simp only [List.foldl_cons]
  have hgstep : starsStep address [] g = [] := by
    simp [starsStep, hg, jsNumGt]
  rw [hgstep, starsStep_fold address rest [] hrest]
  simp [jsTruthyArray]

/-- Witness for C8 on the concrete chain holding stars owned by A, B, A: the
query for A resolves with exactly the two A records, in chain order. -/
theorem getStars_by_owner_spec_witness :
    stD.getStarsByWalletAddress ("A") = Except.ok (specStarsByOwner stD ("A")) ∧
    (specStarsByOwner stD ("A")).map Block.body =
      [BData.starData ("s1") ("A"), BData.starData ("s3") ("A")] :=
  ⟨getStars_by_owner_spec stD
      (Reachable.step stC (BData.starData ("s3") ("A")) 3
        (Reachable.step stB (BData.starData ("s2") ("B")) 2
          (Reachable.step stA (BData.starData ("s1") ("A")) 1
            (Reachable.init 0)))) ("A"),
    by decide⟩

/-- C10. On every state the source's control flow can produce, _addBlock
resolves: the chain already holds its genesis block, so the height read and
the member access chain[self.height - 1] are in range, the block is pushed
before the final guard runs, and the guard tests the block value, which is
an always-truthy object. Every call therefore resolves with the sealed
block and grows the chain array by exactly one element; the rejection with
AppendFailure is unreachable. -/
theorem addBlock_always_resolves (st : ChainState) (hst : Reachable st)
    (block : Block) (nowSec : Nat) :
    ∃ blk, st._addBlock block nowSec =
      ({ chain := st.chain ++ [blk], height := 1 }, Except.ok blk) := by
  obtain ⟨hh, -⟩ := reachable_shape st hst
  exact ⟨sealBlock st block nowSec, addBlock_eq_seal st block nowSec hh⟩

/-- Witness for C10 on the fresh chain with an arbitrary concrete block. -/
theorem addBlock_always_resolves_witness :
    ∃ blk, stA._addBlock (Block.new (BData.starData ("w") ("W"))) 7 =
      ({ chain := stA.chain ++ [blk], height := 1 }, Except.ok blk) :=
  addBlock_always_resolves stA (Reachable.init 0)
    (Block.new (BData.starData ("w") ("W"))) 7

/-- C6, amended. submitStar parses the challenge timestamp from field 1 of
the message; with both clocks in unix seconds the window test
(now - t) / 60 < 5 passes exactly when now - t < 300, the hard strict
boundary of the claim. When the window passes and the
signature-verification capability reports a match, the star block is
appended and the promise resolves with it. Every failure — an expired
challenge, a failed signature check, or an unparsable timestamp (NaN, whose
comparison is false) — is rejected with the one generic rejection
submitStarErrorMsg: the same value in all three cases, with no distinct
ExpiredChallenge or InvalidSignature rejection types. -/
theorem submitStar_cases (st : ChainState) (hst : Reachable st)
    (verify : String → String → String → Bool)
    (address message signature star : String) (nowSec : Nat) :
    (∀ t : Int, challengeTime message = some t → (nowSec : Int) - t < 300 →
        verify message address signature = true →
        ∃ blk, st.submitStar verify address message signature star nowSec =
          ({ chain := st.chain ++ [blk], height := 1 }, Except.ok blk)) ∧
    (∀ t : Int, challengeTime message = some t → 300 ≤ (nowSec : Int) - t →
        st.submitStar verify address message signature star nowSec =
          (st, Except.error submitStarErrorMsg)) ∧
    (verify message address signature = false →
        st.submitStar verify address message signature star nowSec =
          (st, Except.error submitStarErrorMsg)) ∧
    (challengeTime message = none →
        st.submitStar verify address message signature star nowSec =
          (st, Except.error submitStarErrorMsg)) := by
  obtain ⟨hh, -⟩ := reachable_shape st hst
  refine ⟨?_, ?_, ?_, ?_⟩
  · intro t ht hwin hver
    refine ⟨sealBlock st (Block.new (BData.starData star address)) nowSec, ?_⟩
    have hlt : ((nowSec : Int) - t) / 60 < 5 := by omega
    rw [ChainState.submitStar.eq_def, ht]
    simp only [hver, hlt, decide_eq_true_eq, if_pos, Bool.and_true, decide_eq_true]
    exact addBlock_eq_seal st (Block.new (BData.starData star address)) nowSec hh
  · intro t ht hwin
    have hge : ¬ ((nowSec : Int) - t) / 60 < 5 := by omega
    rw [ChainState.submitStar.eq_def, ht]
    simp [hge]
  · intro hver
    rw [ChainState.submitStar.eq_def]
    cases hct : challengeTime message with
    | none => simp [hver]
    | some t => simp [hver]
  · intro hct
    rw [ChainState.submitStar.eq_def, hct]
    simp

/-- Counterexample input for C6 as stated: on the fresh chain, a submission
inside the time window whose signature check fails is rejected with exactly
the same rejection value as a submission with a valid signature whose
challenge has expired (elapsed_minutes = 5). The two failure causes are not
distinguishable by type: there is no separate ExpiredChallenge or
InvalidSignature rejection, only the one generic error. -/
theorem submitStar_same_rejection :
    (stA.submitStar (fun _ _ _ => false)
        ("A") ("A:100:starRegistry") ("sig") ("star") 100).2 =
      (stA.submitStar (fun _ _ _ => true)
        ("A") ("A:100:starRegistry") ("sig") ("star") 400).2 ∧
    (stA.submitStar (fun _ _ _ => false)
        ("A") ("A:100:starRegistry") ("sig") ("star") 100).2 =
      Except.error submitStarErrorMsg := by decide

/-- Witness for C6 at a concrete in-window, verified submission on the fresh
chain. -/
theorem submitStar_cases_witness :
    ∃ blk, stA.submitStar (fun _ _ _ => true)
        ("A") ("A:100:starRegistry") ("sig") ("star") 101 =
      ({ chain := stA.chain ++ [blk], height := 1 }, Except.ok blk) :=
  (submitStar_cases stA (Reachable.init 0) (fun _ _ _ => true)
      ("A") ("A:100:starRegistry") ("sig") ("star") 101).1
    100 (by decide) (by decide) rfl
